import Mathlib

/-!
Verification development for the python-asyncio-taps connection-establishment
and data-transfer engine.

The definitions below are shallow embeddings of the Python source:
  * `create_candidates` embeds `Connection.create_candidates`
    (src/pytaps/connection.py lines 236-280, identical in
    src/PyTAPS/connection.py lines 114-158 and src/pytaps/listener.py).
  * the racing model embeds `TransportLayer.__init__`,
    `TcpTransport.connection_made` / `active_open` and their Udp analogues
    (src/PyTAPS/transports.py).
  * `transportLayer_send` embeds `TransportLayer.send`.
  * `tcp_read` / `udp_read` and friends embed the two TransportSession
    variants.
  * `connection_close` / `udpTransport_close` embed `Connection.close` and
    `UdpTransport.close`.
  * the passive-handler model embeds `DatagramHandler.datagram_received` and
    `StreamHandler.connection_made` (src/pytaps/listener.py).
-/

namespace Taps

/-- Modelled from the spec: the `PreferenceLevel` enum of transportProperties.py
(a module not included under src/); spec section 3 declares exactly the levels
REQUIRE, PREFER, AVOID, PROHIBIT. -/
inductive PreferenceLevel
  | REQUIRE
  | PREFER
  | AVOID
  | PROHIBIT
deriving DecidableEq

/-- One row of the protocol capability table (`get_protocols()`): a protocol
name and its boolean capability flags keyed by property name. -/
structure ProtocolRow where
  name : String
  flag : String → Bool

/-- An entry of the `candidate_protocols` dict: protocol name with its
(prefer score, avoid score) pair. -/
abbrev CandEntry := String × Int × Int

/-- The application's transport property set: property name with its
preference level (a Python dict, iterated in insertion order). -/
abbrev PropertySet := List (String × PreferenceLevel)

/-- `protocol["name"] in candidate_protocols`. -/
def hasName (n : String) (c : List CandEntry) : Bool :=
  c.any (fun e => e.1 == n)

/-- `del candidate_protocols[name]`. -/
def delName (n : String) (c : List CandEntry) : List CandEntry :=
  c.filter (fun e => e.1 != n)

/-- `candidate_protocols[name][0] += 1` (the PREFER score). -/
def bumpPrefer (n : String) (c : List CandEntry) : List CandEntry :=
  c.map (fun e => if e.1 == n then (e.1, e.2.1 + 1, e.2.2) else e)

/-- `candidate_protocols[name][1] -= 1` (the AVOID score). -/
def bumpAvoid (n : String) (c : List CandEntry) : List CandEntry :=
  c.map (fun e => if e.1 == n then (e.1, e.2.1, e.2.2 - 1) else e)

/-- The body of the inner loop of `create_candidates` for one protocol row and
one declared transport property: the four `if` blocks keyed on the property's
preference level (exactly one fires, since the level is a single value). -/
def applyProp (row : ProtocolRow) (c : List CandEntry) (p : String)
    (lvl : PreferenceLevel) : List CandEntry :=
  match lvl with
  | .PROHIBIT => if row.flag p && hasName row.name c then delName row.name c else c
  | .REQUIRE => if !row.flag p && hasName row.name c then delName row.name c else c
  | .PREFER => if row.flag p && hasName row.name c then bumpPrefer row.name c else c
  | .AVOID => if row.flag p && hasName row.name c then bumpAvoid row.name c else c

/-- The inner loop of `create_candidates`: iterate all declared transport
properties (in dict insertion order) for one protocol row. -/
def processRow (props : PropertySet) (c : List CandEntry) (row : ProtocolRow) :
    List CandEntry :=
  props.foldl (fun acc pl => applyProp row acc pl.1 pl.2) c

/-- One step of building the initial dict
`dict([(row["name"], list((0, 0))) for row in available_protocols])`:
a duplicate key keeps its first position (its value is again `[0, 0]`). -/
def dictInit (acc : List CandEntry) (row : ProtocolRow) : List CandEntry :=
  if hasName row.name acc then acc else acc ++ [(row.name, 0, 0)]

/-- The initial `candidate_protocols` dict: every protocol of the table with
scores (0, 0), in declaration order. -/
def initCands (table : List ProtocolRow) : List CandEntry :=
  table.foldl dictInit []

/-- `candidate_protocols` after both loops of `create_candidates` have run
(before sorting). -/
def candidateTable (props : PropertySet) (table : List ProtocolRow) :
    List CandEntry :=
  table.foldl (processRow props) (initCands table)

/-- The sort key `lambda value: (value[1][0], value[1][1])`. -/
def sortKey (e : CandEntry) : Int × Int := (e.2.1, e.2.2)

/-- Lexicographic ≤ on (prefer score, avoid score), as Python compares
tuples. -/
def keyLe (a b : Int × Int) : Bool :=
  decide (a.1 < b.1) || (decide (a.1 = b.1) && decide (a.2 ≤ b.2))

/-- Insertion step of a stable descending sort: `x` is placed before the first
element whose key is ≤ its own, so an element earlier in the input stays
before later elements with an equal key — the behaviour of Python's stable
`sorted(..., reverse=True)`. -/
def insertDesc (x : CandEntry) : List CandEntry → List CandEntry
  | [] => [x]
  | y :: ys => if keyLe (sortKey y) (sortKey x) then x :: y :: ys else y :: insertDesc x ys

/-- Stable descending sort by (prefer score, avoid score):
`sorted(candidate_protocols.items(), key=..., reverse=True)`. -/
def sortDesc : List CandEntry → List CandEntry
  | [] => []
  | x :: xs => insertDesc x (sortDesc xs)

/-- `Connection.create_candidates` (src/pytaps/connection.py lines 236-280):
build the dict of all protocols, delete those failing a REQUIRE or hitting a
PROHIBIT, count PREFER and AVOID hits, and stably sort descending by
(prefer score, avoid score). -/
def create_candidates (props : PropertySet) (table : List ProtocolRow) :
    List CandEntry :=
  sortDesc (candidateTable props table)

/-- The tcp/udp capability table used as concrete test data: tcp has the
`reliable` flag, udp has no flags set. -/
def tcpRow : ProtocolRow := ⟨("tcp"), fun p => p == ("reliable")⟩

def udpRow : ProtocolRow := ⟨("udp"), fun _ => false⟩

def table₁ : List ProtocolRow := [tcpRow, udpRow]

def props₁ : PropertySet := [(("reliable"), PreferenceLevel.REQUIRE)]

/-- `ConnectionState` (src/PyTAPS/connection.py lines 13-17). -/
inductive ConnectionState
  | ESTABLISHING
  | ESTABLISHED
  | CLOSING
  | CLOSED
deriving DecidableEq

/-- Observable state of a racing (active-open) Connection together with its
attempt objects, as mutated by `TransportLayer.__init__`,
`TcpTransport.connection_made` / `active_open` and the Udp analogues
(src/PyTAPS/transports.py).  Attempt objects are identified by numbers in
construction order.  `establishedBy` is a history variable recording which
attempt's `active_open` first set the state to ESTABLISHED (the race winner);
`readyScheduled`, `socketClosed`, `cancelled` and `passiveAccepted` likewise
record scheduled callbacks, sockets closed by the already-established guard,
cancelled pending tasks, and passive accepts. -/
structure RaceConn where
  state : ConnectionState
  readySet : Bool
  transports : List Nat
  pending : List Nat
  tasks : List Nat
  readyScheduled : List Nat
  socketClosed : List Nat
  cancelled : List Nat
  establishedBy : Option Nat
  active : Bool
  passiveAccepted : List Nat
deriving DecidableEq

/-- A fresh active connection as `Connection.__init__` plus `race` leave it:
state ESTABLISHING, `transports = []`, `pending = []` (nothing is ever
appended to `pending`; the code that did so is commented out), `active`
true. -/
def initialRace (readySet : Bool) : RaceConn :=
  ⟨ConnectionState.ESTABLISHING, readySet, [], [], [], [], [], [], none, true, []⟩

/-- `TransportLayer.__init__` (src/PyTAPS/transports.py line 19): every
attempt object appends itself to `connection.transports` at construction. -/
def transportLayer_init (i : Nat) (s : RaceConn) : RaceConn :=
  { s with transports := s.transports ++ [i] }

/-- `TcpTransport.active_open` (src/PyTAPS/transports.py lines 216-225): set
the winning transport, flip the state to ESTABLISHED and schedule the `ready`
callback when set.  It does not touch `transports` and cancels nothing. -/
def tcp_active_open (i : Nat) (s : RaceConn) : RaceConn :=
  { s with
    state := ConnectionState.ESTABLISHED,
    establishedBy := match s.establishedBy with | none => some i | some j => some j,
    readyScheduled := if s.readySet then s.readyScheduled ++ [i] else s.readyScheduled }

/-- `UdpTransport.active_open` (src/PyTAPS/transports.py lines 78-89): first
`for t in self.connection.pending: t.cancel()`, then as the TCP variant. -/
def udp_active_open (i : Nat) (s : RaceConn) : RaceConn :=
  { s with
    cancelled := s.cancelled ++ s.pending,
    state := ConnectionState.ESTABLISHED,
    establishedBy := match s.establishedBy with | none => some i | some j => some j,
    readyScheduled := if s.readySet then s.readyScheduled ++ [i] else s.readyScheduled }

/-- `TcpTransport.connection_made` (src/PyTAPS/transports.py lines 278-299):
if the connection is already ESTABLISHED, close this attempt's socket and
return; otherwise on the passive side accept directly, on the active side
schedule `active_open` as a task.  (The passive branch's callback line reads
a `connection_received` attribute the transport object does not define; the
racing claims only concern the active side, where `active` stays true.) -/
def tcp_connection_made (i : Nat) (s : RaceConn) : RaceConn :=
  if s.state = ConnectionState.ESTABLISHED then
    { s with socketClosed := s.socketClosed ++ [i] }
  else if s.active = false then
    { s with state := ConnectionState.ESTABLISHED,
             passiveAccepted := s.passiveAccepted ++ [i] }
  else
    { s with tasks := s.tasks ++ [i] }

/-- `UdpTransport.connection_made` (src/PyTAPS/transports.py lines 140-171):
identical guard structure to the TCP variant. -/
def udp_connection_made (i : Nat) (s : RaceConn) : RaceConn :=
  if s.state = ConnectionState.ESTABLISHED then
    { s with socketClosed := s.socketClosed ++ [i] }
  else if s.active = false then
    { s with state := ConnectionState.ESTABLISHED,
             passiveAccepted := s.passiveAccepted ++ [i] }
  else
    { s with tasks := s.tasks ++ [i] }

/-- Scheduler-level events of the racing connection: construction of attempt
`i`, the asyncio `connection_made` callback for attempt `i`, and the later
run of the `active_open` task that `connection_made` scheduled. -/
inductive RaceEvent
  | init (i : Nat)
  | connMadeTcp (i : Nat)
  | connMadeUdp (i : Nat)
  | runActiveOpenTcp (i : Nat)
  | runActiveOpenUdp (i : Nat)
deriving DecidableEq

def raceStep (s : RaceConn) (e : RaceEvent) : RaceConn :=
  match e with
  | .init i => transportLayer_init i s
  | .connMadeTcp i => tcp_connection_made i s
  | .connMadeUdp i => udp_connection_made i s
  | .runActiveOpenTcp i =>
      if s.tasks.contains i then tcp_active_open i { s with tasks := s.tasks.erase i } else s
  | .runActiveOpenUdp i =>
      if s.tasks.contains i then udp_active_open i { s with tasks := s.tasks.erase i } else s

/-- The attempt ids constructed along a trace, in construction order. -/
def traceInits (trace : List RaceEvent) : List Nat :=
  trace.filterMap (fun e => match e with | .init i => some i | _ => none)

/-- Counterexample to claim C2: two TCP attempts are constructed (ids 0 and
1); attempt 1 completes first and wins the race (its `active_open` sets
ESTABLISHED).  Afterwards `transports[0]` is still attempt 0 — the
first-constructed attempt, not the winning session — and nothing was
cancelled or discarded. -/
def traceC2 : List RaceEvent :=
  [RaceEvent.init 0, RaceEvent.init 1, RaceEvent.connMadeTcp 1,
   RaceEvent.runActiveOpenTcp 1]

/-- A connection that has already been established by some winner. -/
def establishedConn : RaceConn :=
  { initialRace true with state := ConnectionState.ESTABLISHED }

/-- Result of `TransportLayer.send`: either the method raised mid-body (a
Python AttributeError on a missing attribute) or it returned a value. -/
inductive SendResult
  | raisedAttributeError (attr : String)
  | returned (v : Option Nat)
deriving DecidableEq

/-- Asyncio tasks that `send` can create. -/
inductive SendTask
  | framerSend (data : List Nat)
  | writeData (data : List Nat)
  | sendErrorCb (seq : Nat)
deriving DecidableEq

/-- What a call to `TransportLayer.send` leaves behind: the new per-session
message counter, the raise/return outcome, and the tasks it scheduled (a
scheduled `writeData` task is the only path to a network write, so an empty
task list means no bytes are written). -/
structure SendOutcome where
  message_count : Nat
  result : SendResult
  tasks : List SendTask
deriving DecidableEq

/-- `TransportLayer.send` (src/PyTAPS/transports.py lines 40-56).  The counter
is incremented first.  If the connection is not ESTABLISHED the code then
evaluates `if self.send_error:` — but `TransportLayer.__init__` (lines 14-29)
defines no `send_error` attribute on the transport object (the callback lives
on the Connection), so the attribute lookup raises AttributeError before
anything is scheduled; even if it did not, the branch ends in a bare `return`
(value None) and references the unbound local name `message_count`.
Otherwise the data is handed to the framer or a `write` task and the counter
is returned. -/
def transportLayer_send (message_count : Nat) (st : ConnectionState)
    (framerSet : Bool) (data : List Nat) : SendOutcome :=
  let mc := message_count + 1
  if st ≠ ConnectionState.ESTABLISHED then
    ⟨mc, SendResult.raisedAttributeError ("send_error"), []⟩
  else if framerSet then
    ⟨mc, SendResult.returned (some mc), [SendTask.framerSend data]⟩
  else
    ⟨mc, SendResult.returned (some mc), [SendTask.writeData data]⟩

/-- Actions performed while closing a connection. -/
inductive CloseAction
  | multicastLeave
  | scheduleTransportClose
  | socketClose
  | closedCb
deriving DecidableEq

/-- `Connection.close` (src/pytaps/connection.py lines 227-234): schedule a
multicast leave when a membership is open, schedule `transports[0].close()`,
then set `self.state = ConnectionState.CLOSING` — with no check of the
current state, which is ignored (the `st` argument does not influence the
result). -/
def connection_close (st : ConnectionState) (multicastOpen : Bool) :
    ConnectionState × List CloseAction :=
  (ConnectionState.CLOSING,
    (if multicastOpen then [CloseAction.multicastLeave] else []) ++
      [CloseAction.scheduleTransportClose])

/-- `UdpTransport.close` (src/PyTAPS/transports.py lines 113-118): close the
socket, set the connection state to CLOSED, schedule the `closed` callback
when set. -/
def udpTransport_close (closedSet : Bool) : ConnectionState × List CloseAction :=
  (ConnectionState.CLOSED,
    [CloseAction.socketClose] ++ (if closedSet then [CloseAction.closedCb] else []))

/-- Deliveries the receive path can schedule: the `received` callback or the
`received_partial` callback (with its end-of-message flag). -/
inductive RxEvent
  | received (data : List Nat)
  | receivedPart (data : List Nat) (endOfMessage : Bool)
deriving DecidableEq

/-- State of a `TcpTransport` session relevant to receiving.  `at_eof` is the
transport's own flag from `TransportLayer.__init__` (initially false);
`connection_at_eof` is the attribute the source's `eof_received` actually
writes — on the Connection object, not the transport. -/
structure TcpSession where
  recv_buffer : Option (List Nat)
  at_eof : Bool
  connection_at_eof : Bool
deriving DecidableEq

/-- `TcpTransport.data_received` (src/PyTAPS/transports.py lines 319-338):
append to the buffer (creating it on first data) and wake waiters. -/
def tcp_data_received (s : TcpSession) (d : List Nat) : TcpSession :=
  match s.recv_buffer with
  | none => { s with recv_buffer := some d }
  | some b => { s with recv_buffer := some (b ++ d) }

/-- `TcpTransport.eof_received` (src/PyTAPS/transports.py lines 313-315):
executes `self.connection.at_eof = True` — it sets the flag on the Connection
object, not the transport's own `at_eof` field. -/
def tcp_eof_received (s : TcpSession) : TcpSession :=
  { s with connection_at_eof := true }

/-- Python slice `b[:m]` for an int `m` (negative means count from the
end). -/
def pyTake (m : Int) (b : List Nat) : List Nat :=
  if 0 ≤ m then b.take m.toNat else b.take (b.length - m.natAbs)

/-- Python slice `b[m:]` for an int `m`. -/
def pyDrop (m : Int) (b : List Nat) : List Nat :=
  if 0 ≤ m then b.drop m.toNat else b.drop (b.length - m.natAbs)

/-- `TcpTransport.read` (src/PyTAPS/transports.py lines 244-264) after its
waiting loop: `none` models a still-suspended read (buffer missing or below
`min_incomplete_length`); otherwise the loop has exited and delivery happens.
If `max_length` is -1 or the buffer fits, the whole buffer is delivered and
cleared, else the first `max_length` bytes are delivered and the rest kept.
The delivery goes to `received` only when the transport's own `at_eof` flag
is set, else to `received_partial` with end-of-message false; each callback
fires only when set on the connection. -/
def tcp_read (s : TcpSession) (minIncompleteLength : Nat) (maxLength : Int)
    (receivedSet receivedPartSet : Bool) : Option (TcpSession × List RxEvent) :=
  match s.recv_buffer with
  | none => none
  | some b =>
    if b.length < minIncompleteLength then none
    else
      let data := if maxLength = -1 ∨ (b.length : Int) ≤ maxLength then b
                  else pyTake maxLength b
      let rest : Option (List Nat) :=
        if maxLength = -1 ∨ (b.length : Int) ≤ maxLength then none
        else some (pyDrop maxLength b)
      let s' := { s with recv_buffer := rest }
      if s.at_eof then
        some (s', if receivedSet then [RxEvent.received data] else [])
      else
        some (s', if receivedPartSet then [RxEvent.receivedPart data false] else [])

/-- The bytes of the string "hello". -/
def helloBytes : List Nat := [104, 101, 108, 108, 111]

/-- State of a `UdpTransport` session relevant to receiving: `None` or the
list of whole buffered datagrams, oldest first. -/
structure UdpSession where
  recv_buffer : Option (List (List Nat))
deriving DecidableEq

/-- `UdpTransport.datagram_received` (src/PyTAPS/transports.py lines
181-194): create the buffer list on first use and append the datagram as one
atomic unit, then wake waiters. -/
def udp_datagram_received (s : UdpSession) (d : List Nat) : UdpSession :=
  match s.recv_buffer with
  | none => ⟨some [d]⟩
  | some b => ⟨some (b ++ [d])⟩

/-- `UdpTransport.read` (src/PyTAPS/transports.py lines 120-133): `none`
models the read still awaiting a first datagram (`await_data` while the
buffer is None).  With a buffered datagram present, if exactly one datagram
is buffered it is taken and the buffer reset to None, else the oldest is
popped (`pop(0)`); the whole datagram is then delivered via `received` when
that callback is set.  The `min_incomplete_length` and `max_length`
parameters are accepted and ignored, exactly as in the source.  (A buffer
that is an empty list is unreachable — `datagram_received` always appends —
and `pop(0)` would raise there; it is modelled as no delivery.) -/
def udp_read (s : UdpSession) (minIncompleteLength : Nat) (maxLength : Int)
    (receivedSet : Bool) : Option (UdpSession × List RxEvent) :=
  match s.recv_buffer with
  | none => none
  | some [] => none
  | some (d :: rest) =>
    let s' : UdpSession := if (d :: rest).length = 1 then ⟨none⟩ else ⟨some rest⟩
    some (s', if receivedSet then [RxEvent.received d] else [])

/-- A racing candidate of the newer-generation `race`
(src/pytaps/connection.py): protocol entry crossed with a remote address and
an optional pinned local address. -/
structure Candidate where
  protocol : String
  prefer : Int
  avoid : Int
  remote : String
  localAddr : Option String
deriving DecidableEq

/-- The candidate list comprehension with a pinned local interface:
`[protocol + (remote_address,) + (local_address,) for remote_address in …
for protocol in … for local_address in …]` (src/pytaps/connection.py lines
126-133). -/
def crossLocal (prots : List CandEntry) (remotes locals : List String) :
    List Candidate :=
  remotes.flatMap (fun r =>
    prots.flatMap (fun p =>
      locals.map (fun l => ⟨p.1, p.2.1, p.2.2, r, some l⟩)))

/-- The candidate list comprehension without a local endpoint:
`[protocol + (address,) for address in remote_addrs for protocol in …]`
(src/pytaps/connection.py lines 139-141). -/
def crossNoLocal (prots : List CandEntry) (remotes : List String) :
    List Candidate :=
  remotes.flatMap (fun r => prots.map (fun p => ⟨p.1, p.2.1, p.2.2, r, none⟩))

/-- The candidate loop of the newer-generation `race`
(src/pytaps/connection.py lines 144-204).  `established k` tells whether the
connection has become ESTABLISHED before loop iteration `k` (the loop breaks
then).  A udp candidate is attempted and the loop breaks (no racing of
further candidates); when no local endpoint is present the udp branch also
schedules `initiate_error` if set.  A tcp candidate is attempted and the
loop continues after the racing delay.  A candidate with any other protocol
name matches neither branch and is skipped without an attempt.  Returns the
attempted candidates in order and whether `initiate_error` was scheduled. -/
def race_loop (established : Nat → Bool) (noLocal initErrSet : Bool) :
    Nat → List Candidate → List Candidate × Bool
  | _, [] => ([], false)
  | k, c :: rest =>
    if established k then ([], false)
    else if c.protocol == ("udp") then ([c], noLocal && initErrSet)
    else if c.protocol == ("tcp") then
      let r := race_loop established noLocal initErrSet (k + 1) rest
      (c :: r.1, r.2)
    else race_loop established noLocal initErrSet (k + 1) rest

/-- Outcome of a `race` call: candidates attempted, and whether an
`initiate_error` callback was scheduled. -/
structure RaceOutcome where
  attempts : List Candidate
  initiateErrorScheduled : Bool
deriving DecidableEq

/-- `Connection.race` of the newer generation (src/pytaps/connection.py lines
46-204).  The protocol candidates come from `create_candidates`; if that set
is empty the function schedules `initiate_error` (when set) and returns with
no attempt.  Otherwise the candidate set is built from the resolved remote
addresses (IPv6 group first) crossed with the protocols — and with the local
interface's addresses per family when a local endpoint is pinned — and the
candidate loop runs.  Name resolution, the TLS context and the attempt tasks
themselves are external effects; their results enter as the address-list
parameters and the `established` oracle. -/
def race_pytaps (props : PropertySet) (table : List ProtocolRow)
    (initErrSet : Bool) (remoteV6 remoteV4 : List String)
    (localAddrs : Option (List String × List String))
    (established : Nat → Bool) : RaceOutcome :=
  let protocolCandidates := create_candidates props table
  if protocolCandidates.length = 0 then ⟨[], initErrSet⟩
  else
    let candidateSet :=
      match localAddrs with
      | some (l6, l4) =>
          crossLocal protocolCandidates remoteV6 l6 ++
            crossLocal protocolCandidates remoteV4 l4
      | none => crossNoLocal protocolCandidates (remoteV6 ++ remoteV4)
    let r := race_loop established localAddrs.isNone initErrSet 0 candidateSet
    ⟨r.1, r.2⟩

/-- The candidate loop of the older-generation `race`
(src/PyTAPS/connection.py lines 69-90): iterates the protocol candidates
directly (no address crossing, no racing delay, no break after udp),
attempting every tcp/udp candidate until the established check stops it. -/
def race_loop_old (established : Nat → Bool) :
    Nat → List CandEntry → List CandEntry
  | _, [] => []
  | k, c :: rest =>
    if established k then []
    else if c.1 == ("udp") then c :: race_loop_old established (k + 1) rest
    else if c.1 == ("tcp") then c :: race_loop_old established (k + 1) rest
    else race_loop_old established (k + 1) rest

/-- Outcome of the older-generation `race`. -/
structure RaceOutcomeOld where
  attempts : List CandEntry
  initiateErrorScheduled : Bool
deriving DecidableEq

/-- `Connection.race` of the older generation (src/PyTAPS/connection.py
lines 48-94).  It has no empty-candidate-set check and contains no
`initiate_error` invocation anywhere, so `initErrSet` — whether the callback
is set on the connection — is never consulted and nothing is ever
scheduled. -/
def race_PyTAPS (props : PropertySet) (table : List ProtocolRow)
    (initErrSet : Bool) (established : Nat → Bool) : RaceOutcomeOld :=
  ⟨race_loop_old established 0 (create_candidates props table), false⟩

/-- A property set and table eliminating every protocol: the sole protocol
`tcp` carries the `reliable` flag, which is prohibited. -/
def propsEmpty : PropertySet := [(("reliable"), PreferenceLevel.PROHIBIT)]

def tableEmpty : List ProtocolRow := [⟨("tcp"), fun p => p == ("reliable")⟩]

/-- Observable state of a passively created connection (src/pytaps): the
current state, the full history of values ever assigned to `.state`, the
number of transports constructed for it, the connection state snapshot taken
each time `connection_received` is scheduled, and the datagrams buffered into
its transport. -/
structure PassiveConnSt where
  state : ConnectionState
  history : List ConnectionState
  transports : Nat
  scheduled : List ConnectionState
  buffered : List (List Nat)
deriving DecidableEq

/-- `Connection.__init__` (src/pytaps/connection.py lines 26-44): a fresh
connection starts in ESTABLISHING with no transports. -/
def connectionInitPassive : PassiveConnSt :=
  ⟨ConnectionState.ESTABLISHING, [ConnectionState.ESTABLISHING], 0, [], []⟩

/-- An assignment `connection.state = st`, recorded in the history. -/
def setConnState (c : PassiveConnSt) (st : ConnectionState) : PassiveConnSt :=
  { c with state := st, history := c.history ++ [st] }

/-- The new-remote branch of `DatagramHandler.datagram_received`
(src/pytaps/listener.py lines 256-281): create a Connection (ESTABLISHING),
set its state to ESTABLISHED, build the remote endpoint, create a
UdpTransport for it, schedule `connection_received` if set (the connection's
state at that moment is snapshotted), and finally feed the first datagram to
the new transport's buffer.  No racing or connection attempt occurs. -/
def datagramHandler_new_flow (cbSet : Bool) (data : List Nat) : PassiveConnSt :=
  let c0 := connectionInitPassive
  let c1 := setConnState c0 ConnectionState.ESTABLISHED
  let c2 := { c1 with transports := c1.transports + 1 }
  let c3 := if cbSet then { c2 with scheduled := c2.scheduled ++ [c2.state] } else c2
  { c3 with buffered := c3.buffered ++ [data] }

/-- `DatagramHandler.datagram_received` dispatch: a datagram from an already
known remote address is forwarded to that connection's `transports[0]`
(result `none` here — no new connection); a previously unseen address takes
the new-flow branch. -/
def datagramHandler_datagram_received (remotes : List (String × Nat))
    (addr : String × Nat) (cbSet : Bool) (data : List Nat) :
    Option PassiveConnSt :=
  if addr ∈ remotes then none
  else some (datagramHandler_new_flow cbSet data)

/-- `StreamHandler.connection_made` (src/pytaps/listener.py lines 284-308):
the handler's `__init__` created the Connection (ESTABLISHING); on the
accepted socket it builds the remote endpoint, creates a TcpTransport, sets
the state to ESTABLISHED and schedules `connection_received` if set.  No
racing or connection attempt occurs. -/
def streamHandler_connection_made (cbSet : Bool) : PassiveConnSt :=
  let c0 := connectionInitPassive
  let c1 := { c0 with transports := c0.transports + 1 }
  let c2 := setConnState c1 ConnectionState.ESTABLISHED
  if cbSet then { c2 with scheduled := c2.scheduled ++ [c2.state] } else c2

/-- A name occurs in the candidate dict iff some entry carries it. -/
theorem hasName_iff {n : String} {c : List CandEntry} :
    hasName n c = true ↔ ∃ e ∈ c, e.1 = n := by
  simp [hasName, List.any_eq_true]

theorem mem_delName {e : CandEntry} {n : String} {c : List CandEntry} :
    e ∈ delName n c ↔ e ∈ c ∧ e.1 ≠ n := by
  simp [delName, List.mem_filter]

theorem exists_name_bumpPrefer {n m : String} {c : List CandEntry} :
    (∃ e ∈ bumpPrefer m c, e.1 = n) ↔ ∃ e ∈ c, e.1 = n := by
  unfold bumpPrefer
  constructor
  · rintro ⟨e, he, hn⟩
    rcases List.mem_map.mp he with ⟨a, ha, rfl⟩
    refine ⟨a, ha, ?_⟩
    by_cases h : a.1 == m <;> simp [h] at hn <;> exact hn
  · rintro ⟨e, he, hn⟩
    by_cases h : e.1 == m
    · exact ⟨(e.1, e.2.1 + 1, e.2.2), List.mem_map.mpr ⟨e, he, by simp [h]⟩, hn⟩
    · exact ⟨e, List.mem_map.mpr ⟨e, he, by simp [h]⟩, hn⟩

theorem exists_name_bumpAvoid {n m : String} {c : List CandEntry} :
    (∃ e ∈ bumpAvoid m c, e.1 = n) ↔ ∃ e ∈ c, e.1 = n := by
  unfold bumpAvoid
  constructor
  · rintro ⟨e, he, hn⟩
    rcases List.mem_map.mp he with ⟨a, ha, rfl⟩
    refine ⟨a, ha, ?_⟩
    by_cases h : a.1 == m <;> simp [h] at hn <;> exact hn
  · rintro ⟨e, he, hn⟩
    by_cases h : e.1 == m
    · exact ⟨(e.1, e.2.1, e.2.2 - 1), List.mem_map.mpr ⟨e, he, by simp [h]⟩, hn⟩
    · exact ⟨e, List.mem_map.mpr ⟨e, he, by simp [h]⟩, hn⟩

/-- `applyProp` never introduces a protocol name that was not present. -/
theorem applyProp_name_mono {row : ProtocolRow} {c : List CandEntry}
    {p : String} {lvl : PreferenceLevel} {n : String}
    (h : ∃ e ∈ applyProp row c p lvl, e.1 = n) : ∃ e ∈ c, e.1 = n := by
  cases lvl with
  | PROHIBIT =>
    simp only [applyProp] at h
    split at h
    · rcases h with ⟨e, he, hn⟩
      exact ⟨e, (mem_delName.mp he).1, hn⟩
    · exact h
  | REQUIRE =>
    simp only [applyProp] at h
    split at h
    · rcases h with ⟨e, he, hn⟩
      exact ⟨e, (mem_delName.mp he).1, hn⟩
    · exact h
  | PREFER =>
    simp only [applyProp] at h
    split at h
    · exact exists_name_bumpPrefer.mp h
    · exact h
  | AVOID =>
    simp only [applyProp] at h
    split at h
    · exact exists_name_bumpAvoid.mp h
    · exact h

/-- Once a protocol row fails a REQUIRE-level property, its name is gone from
the candidate dict after that property's pass over the row. -/
theorem applyProp_require_kills {row : ProtocolRow} {c : List CandEntry}
    {p : String} (hf : row.flag p = false) :
    ¬ ∃ e ∈ applyProp row c p PreferenceLevel.REQUIRE, e.1 = row.name := by
  by_cases hc : hasName row.name c = true
  · have heq : applyProp row c p PreferenceLevel.REQUIRE = delName row.name c := by
      simp [applyProp, hf, hc]
    rw [heq]
    rintro ⟨e, he, hn⟩
    exact (mem_delName.mp he).2 hn
  · intro h
    exact hc (hasName_iff.mpr (applyProp_name_mono h))

/-- Once a protocol row hits a PROHIBIT-level property, its name is gone from
the candidate dict after that property's pass over the row. -/
theorem applyProp_prohibit_kills {row : ProtocolRow} {c : List CandEntry}
    {p : String} (hf : row.flag p = true) :
    ¬ ∃ e ∈ applyProp row c p PreferenceLevel.PROHIBIT, e.1 = row.name := by
  by_cases hc : hasName row.name c = true
  · have heq : applyProp row c p PreferenceLevel.PROHIBIT = delName row.name c := by
      simp [applyProp, hf, hc]
    rw [heq]
    rintro ⟨e, he, hn⟩
    exact (mem_delName.mp he).2 hn
  · intro h
    exact hc (hasName_iff.mpr (applyProp_name_mono h))

/-- A name absent from the dict stays absent through the inner property loop. -/
theorem processRow_name_mono {props : PropertySet} {row : ProtocolRow} {n : String} :
    ∀ {c : List CandEntry}, ¬ (∃ e ∈ c, e.1 = n) →
      ¬ ∃ e ∈ processRow props c row, e.1 = n := by
  induction props with
  | nil => intro c h; exact h
  | cons pl rest ih =>
    intro c h
    exact ih (fun hx => h (applyProp_name_mono hx))

/-- If the property set declares `p` at REQUIRE and the row's flag for `p` is
false, the row's name does not survive the inner property loop. -/
theorem processRow_require_kills {props : PropertySet} {row : ProtocolRow}
    {p : String} (hp : (p, PreferenceLevel.REQUIRE) ∈ props)
    (hf : row.flag p = false) :
    ∀ {c : List CandEntry}, ¬ ∃ e ∈ processRow props c row, e.1 = row.name := by
  induction props with
  | nil => cases hp
  | cons pl rest ih =>
    intro c
    rcases List.mem_cons.mp hp with h | h
    · rw [← h]
      have hstep : processRow ((p, PreferenceLevel.REQUIRE) :: rest) c row
          = processRow rest (applyProp row c p PreferenceLevel.REQUIRE) row := rfl
      rw [hstep]
      exact processRow_name_mono (applyProp_require_kills hf)
    · exact ih h

/-- If the property set declares `p` at PROHIBIT and the row's flag for `p` is
true, the row's name does not survive the inner property loop. -/
theorem processRow_prohibit_kills {props : PropertySet} {row : ProtocolRow}
    {p : String} (hp : (p, PreferenceLevel.PROHIBIT) ∈ props)
    (hf : row.flag p = true) :
    ∀ {c : List CandEntry}, ¬ ∃ e ∈ processRow props c row, e.1 = row.name := by
  induction props with
  | nil => cases hp
  | cons pl rest ih =>
    intro c
    rcases List.mem_cons.mp hp with h | h
    · rw [← h]
      have hstep : processRow ((p, PreferenceLevel.PROHIBIT) :: rest) c row
          = processRow rest (applyProp row c p PreferenceLevel.PROHIBIT) row := rfl
      rw [hstep]
      exact processRow_name_mono (applyProp_prohibit_kills hf)
    · exact ih h

/-- A name absent from the dict stays absent through the outer protocol loop. -/
theorem foldRows_name_mono {props : PropertySet} {n : String} :
    ∀ (rows : List ProtocolRow) {c : List CandEntry}, ¬ (∃ e ∈ c, e.1 = n) →
      ¬ ∃ e ∈ rows.foldl (processRow props) c, e.1 = n := by
  intro rows
  induction rows with
  | nil => intro c h; exact h
  | cons r rest ih =>
    intro c h
    exact ih (processRow_name_mono h)

/-- A protocol eliminated by a REQUIRE or PROHIBIT violation of one of its
table rows is absent from the final (unsorted) candidate dict. -/
theorem candidateTable_kills {props : PropertySet} {table : List ProtocolRow}
    {row : ProtocolRow} (hrow : row ∈ table) {p : String}
    {lvl : PreferenceLevel} (hp : (p, lvl) ∈ props)
    (hkill : (lvl = PreferenceLevel.REQUIRE ∧ row.flag p = false) ∨
             (lvl = PreferenceLevel.PROHIBIT ∧ row.flag p = true)) :
    ¬ ∃ e ∈ candidateTable props table, e.1 = row.name := by
  rcases List.append_of_mem hrow with ⟨s, t, rfl⟩
  unfold candidateTable
  rw [List.foldl_append, List.foldl_cons]
  apply foldRows_name_mono
  rcases hkill with ⟨hl, hf⟩ | ⟨hl, hf⟩
  · subst hl; exact processRow_require_kills hp hf
  · subst hl; exact processRow_prohibit_kills hp hf

theorem mem_insertDesc {a x : CandEntry} {l : List CandEntry}
    (h : a ∈ insertDesc x l) : a = x ∨ a ∈ l := by
  induction l with
  | nil => simpa [insertDesc] using h
  | cons y ys ih =>
    unfold insertDesc at h
    split at h
    · simpa using h
    · rcases List.mem_cons.mp h with h | h
      · exact Or.inr (h ▸ List.mem_cons_self y ys)
      · rcases ih h with h | h
        · exact Or.inl h
        · exact Or.inr (List.mem_cons_of_mem y h)

theorem mem_sortDesc {a : CandEntry} {l : List CandEntry}
    (h : a ∈ sortDesc l) : a ∈ l := by
  induction l with
  | nil => simp [sortDesc] at h
  | cons x xs ih =>
    unfold sortDesc at h
    rcases mem_insertDesc h with h | h
    · exact h ▸ List.mem_cons_self x xs
    · exact List.mem_cons_of_mem x (ih h)

/-- Claim C1: for every transport property set and every protocol table, the
ranked candidate list returned by `create_candidates` contains no protocol
whose capability flag is false for some property declared at level REQUIRE,
and no protocol whose capability flag is true for some property declared at
level PROHIBIT. -/
theorem claim_C1 (props : PropertySet) (table : List ProtocolRow)
    (n : String) (s₁ s₂ : Int)
    (hmem : (n, s₁, s₂) ∈ create_candidates props table)
    (row : ProtocolRow) (hrow : row ∈ table) (hname : row.name = n) :
    (∀ p, (p, PreferenceLevel.REQUIRE) ∈ props → row.flag p = true) ∧
    (∀ p, (p, PreferenceLevel.PROHIBIT) ∈ props → row.flag p = false) := by
  have hP : ∃ e ∈ candidateTable props table, e.1 = row.name :=
    ⟨(n, s₁, s₂), mem_sortDesc hmem, hname.symm⟩
  constructor
  · intro p hp
    by_contra hf
    rw [Bool.not_eq_true] at hf
    exact candidateTable_kills hrow hp (Or.inl ⟨rfl, hf⟩) hP
  · intro p hp
    by_contra hf
    rw [Bool.not_eq_false] at hf
    exact candidateTable_kills hrow hp (Or.inr ⟨rfl, hf⟩) hP

/-- Witness for claim C1: in the concrete table {tcp: reliable, udp: -} with
property set {reliable: REQUIRE}, the surviving entry ("tcp", 0, 0) indeed
has its `reliable` flag true. -/
theorem claim_C1_witness : tcpRow.flag ("reliable") = true :=
  (claim_C1 props₁ table₁ ("tcp") 0 0 (by decide) tcpRow
    (List.mem_cons_self tcpRow [udpRow]) rfl).1 ("reliable")
    (List.mem_cons_self _ [])

theorem keyLe_refl (k : Int × Int) : keyLe k k = true := by
  simp [keyLe]

/-- When the declared property's level is neither PREFER nor AVOID, the inner
loop body either deletes an entry or leaves the dict unchanged. -/
theorem applyProp_sublist {row : ProtocolRow} {c : List CandEntry} {p : String}
    {lvl : PreferenceLevel} (h : lvl ≠ PreferenceLevel.PREFER ∧ lvl ≠ PreferenceLevel.AVOID) :
    (applyProp row c p lvl).Sublist c := by
  cases lvl with
  | PROHIBIT =>
    simp only [applyProp]
    split
    · exact List.filter_sublist c
    · exact List.Sublist.refl c
  | REQUIRE =>
    simp only [applyProp]
    split
    · exact List.filter_sublist c
    · exact List.Sublist.refl c
  | PREFER => exact absurd rfl h.1
  | AVOID => exact absurd rfl h.2

theorem processRow_sublist {props : PropertySet} {row : ProtocolRow}
    (h : ∀ pl ∈ props, pl.2 ≠ PreferenceLevel.PREFER ∧ pl.2 ≠ PreferenceLevel.AVOID) :
    ∀ {c : List CandEntry}, (processRow props c row).Sublist c := by
  induction props with
  | nil => intro c; exact List.Sublist.refl c
  | cons pl rest ih =>
    intro c
    have h1 : (processRow rest (applyProp row c pl.1 pl.2) row).Sublist
        (applyProp row c pl.1 pl.2) :=
      ih (fun q hq => h q (List.mem_cons_of_mem pl hq))
    exact h1.trans (applyProp_sublist (h pl (List.mem_cons_self pl rest)))

theorem foldRows_sublist {props : PropertySet}
    (h : ∀ pl ∈ props, pl.2 ≠ PreferenceLevel.PREFER ∧ pl.2 ≠ PreferenceLevel.AVOID) :
    ∀ (rows : List ProtocolRow) (c : List CandEntry),
      (rows.foldl (processRow props) c).Sublist c := by
  intro rows
  induction rows with
  | nil => intro c; exact List.Sublist.refl c
  | cons r rest ih =>
    intro c
    exact (ih (processRow props c r)).trans (processRow_sublist h)

/-- Without PREFER/AVOID declarations the processed dict is a sublist (order
preserved) of the initial declaration-ordered dict. -/
theorem candidateTable_sublist {props : PropertySet} {table : List ProtocolRow}
    (h : ∀ pl ∈ props, pl.2 ≠ PreferenceLevel.PREFER ∧ pl.2 ≠ PreferenceLevel.AVOID) :
    (candidateTable props table).Sublist (initCands table) :=
  foldRows_sublist h table (initCands table)

/-- Every entry of the initial dict carries the score pair (0, 0). -/
theorem sortKey_initCands {table : List ProtocolRow} :
    ∀ e ∈ initCands table, sortKey e = (0, 0) := by
  unfold initCands
  have aux : ∀ (rows : List ProtocolRow) (acc : List CandEntry),
      (∀ e ∈ acc, sortKey e = (0, 0)) →
      ∀ e ∈ rows.foldl dictInit acc, sortKey e = (0, 0) := by
    intro rows
    induction rows with
    | nil => intro acc hacc; exact hacc
    | cons r rest ih =>
      intro acc hacc
      apply ih
      intro e he
      unfold dictInit at he
      split at he
      · exact hacc e he
      · rcases List.mem_append.mp he with h1 | h1
        · exact hacc e h1
        · rw [List.mem_singleton.mp h1]; rfl
  exact aux table [] (by intro e he; cases he)

/-- Inserting into a list of entries that all share the insertee's sort key
just prepends (the stable descending insert keeps input order on ties). -/
theorem insertDesc_const {x : CandEntry} {l : List CandEntry} {k : Int × Int}
    (hx : sortKey x = k) (hl : ∀ e ∈ l, sortKey e = k) :
    insertDesc x l = x :: l := by
  cases l with
  | nil => rfl
  | cons y ys =>
    unfold insertDesc
    rw [hl y (List.mem_cons_self y ys), hx, if_pos (keyLe_refl k)]

theorem sortDesc_const {l : List CandEntry} {k : Int × Int}
    (hl : ∀ e ∈ l, sortKey e = k) : sortDesc l = l := by
  induction l with
  | nil => rfl
  | cons x xs ih =>
    unfold sortDesc
    rw [ih (fun e he => hl e (List.mem_cons_of_mem x he)),
      insertDesc_const (hl x (List.mem_cons_self x xs))
        (fun e he => hl e (List.mem_cons_of_mem x he))]

/-- Stability of the descending insert: restricted to any fixed sort key, the
inserted element lands after every element already present with that key. -/
theorem filter_insertDesc (k : Int × Int) (x : CandEntry) (l : List CandEntry) :
    (insertDesc x l).filter (fun e => sortKey e == k) =
      if sortKey x == k then x :: l.filter (fun e => sortKey e == k)
      else l.filter (fun e => sortKey e == k) := by
  induction l with
  | nil =>
    unfold insertDesc
    by_cases hxk : (sortKey x == k) = true <;> simp [List.filter, hxk]
  | cons y ys ih =>
    unfold insertDesc
    by_cases hc : keyLe (sortKey y) (sortKey x) = true
    · rw [if_pos hc]
      by_cases hxk : (sortKey x == k) = true
      · rw [if_pos hxk]
        simp [List.filter_cons, hxk]
      · rw [if_neg hxk]
        simp [List.filter_cons, hxk]
    · rw [if_neg hc]
      by_cases hxk : (sortKey x == k) = true
      · have hyk : (sortKey y == k) = false := by
          by_contra hy
          rw [Bool.not_eq_false, beq_iff_eq] at hy
          rw [beq_iff_eq] at hxk
          exact hc (by rw [hy, hxk]; exact keyLe_refl k)
        rw [if_pos hxk]
        rw [List.filter_cons_of_neg (by simp [hyk]), List.filter_cons_of_neg (by simp [hyk]),
          ih, if_pos hxk]
      · rw [if_neg hxk]
        by_cases hyk : (sortKey y == k) = true
        · rw [List.filter_cons_of_pos (by simp [hyk]), List.filter_cons_of_pos (by simp [hyk]),
            ih, if_neg hxk]
        · rw [List.filter_cons_of_neg (by simp [hyk]), List.filter_cons_of_neg (by simp [hyk]),
            ih, if_neg hxk]

/-- Stability of the descending sort: entries sharing one sort key appear in
the output exactly in their input order. -/
theorem filter_sortDesc (k : Int × Int) (l : List CandEntry) :
    (sortDesc l).filter (fun e => sortKey e == k) =
      l.filter (fun e => sortKey e == k) := by
  induction l with
  | nil => rfl
  | cons x xs ih =>
    unfold sortDesc
    rw [filter_insertDesc k x (sortDesc xs)]
    by_cases hxk : (sortKey x == k) = true
    · rw [if_pos hxk, ih, List.filter_cons_of_pos (by simp [hxk])]
    · rw [if_neg hxk, ih, List.filter_cons_of_neg (by simp [hxk])]

theorem namesOf_bumpPrefer {m : String} {c : List CandEntry} :
    (bumpPrefer m c).map (fun e => e.1) = c.map (fun e => e.1) := by
  induction c with
  | nil => rfl
  | cons e es ih =>
    unfold bumpPrefer at ih ⊢
    simp only [List.map_cons, ih]
    congr 1
    by_cases h : (e.1 == m) = true <;> simp [h]

theorem namesOf_bumpAvoid {m : String} {c : List CandEntry} :
    (bumpAvoid m c).map (fun e => e.1) = c.map (fun e => e.1) := by
  induction c with
  | nil => rfl
  | cons e es ih =>
    unfold bumpAvoid at ih ⊢
    simp only [List.map_cons, ih]
    congr 1
    by_cases h : (e.1 == m) = true <;> simp [h]

/-- Whatever the level, the inner loop body leaves the surviving protocol
names in their previous relative order. -/
theorem namesOf_applyProp_sublist {row : ProtocolRow} {c : List CandEntry}
    {p : String} {lvl : PreferenceLevel} :
    ((applyProp row c p lvl).map (fun e => e.1)).Sublist (c.map (fun e => e.1)) := by
  cases lvl with
  | PROHIBIT =>
    simp only [applyProp]
    split
    · exact (List.filter_sublist c).map _
    · exact List.Sublist.refl _
  | REQUIRE =>
    simp only [applyProp]
    split
    · exact (List.filter_sublist c).map _
    · exact List.Sublist.refl _
  | PREFER =>
    simp only [applyProp]
    split
    · have h1 : (bumpPrefer row.name c).map (fun e => e.1) = c.map (fun e => e.1) :=
        namesOf_bumpPrefer
      rw [h1]
    · exact List.Sublist.refl _
  | AVOID =>
    simp only [applyProp]
    split
    · have h1 : (bumpAvoid row.name c).map (fun e => e.1) = c.map (fun e => e.1) :=
        namesOf_bumpAvoid
      rw [h1]
    · exact List.Sublist.refl _

theorem namesOf_processRow_sublist {props : PropertySet} {row : ProtocolRow} :
    ∀ {c : List CandEntry},
      ((processRow props c row).map (fun e => e.1)).Sublist (c.map (fun e => e.1)) := by
  induction props with
  | nil => intro c; exact List.Sublist.refl _
  | cons pl rest ih =>
    intro c
    exact List.Sublist.trans ih namesOf_applyProp_sublist

/-- For every input, the surviving protocol names of the processed dict are a
subsequence of the declaration-ordered initial dict's names. -/
theorem namesOf_candidateTable_sublist {props : PropertySet} {table : List ProtocolRow} :
    ((candidateTable props table).map (fun e => e.1)).Sublist
      ((initCands table).map (fun e => e.1)) := by
  unfold candidateTable
  have aux : ∀ (rows : List ProtocolRow) (c : List CandEntry),
      ((rows.foldl (processRow props) c).map (fun e => e.1)).Sublist
        (c.map (fun e => e.1)) := by
    intro rows
    induction rows with
    | nil => intro c; exact List.Sublist.refl _
    | cons r rest ih =>
      intro c
      exact List.Sublist.trans (ih (processRow props c r)) namesOf_processRow_sublist
  exact aux table (initCands table)

/-- Claim C9: for every property set with no PREFER-level and no AVOID-level
entries, `create_candidates` returns the surviving protocols in exactly the
table's declaration order (the sort is the identity and the result is an
in-order sublist of the initial declaration-ordered dict); more generally,
for every input, protocols with equal (prefer score, avoid score) keep the
declaration order in the result. -/
theorem claim_C9 (props : PropertySet) (table : List ProtocolRow)
    (h : ∀ pl ∈ props, pl.2 ≠ PreferenceLevel.PREFER ∧ pl.2 ≠ PreferenceLevel.AVOID) :
    create_candidates props table = candidateTable props table ∧
    (create_candidates props table).Sublist (initCands table) ∧
    (∀ (props₂ : PropertySet) (table₂ : List ProtocolRow) (k : Int × Int),
      (create_candidates props₂ table₂).filter (fun e => sortKey e == k) =
        (candidateTable props₂ table₂).filter (fun e => sortKey e == k)) ∧
    (∀ (props₂ : PropertySet) (table₂ : List ProtocolRow),
      ((candidateTable props₂ table₂).map (fun e => e.1)).Sublist
        ((initCands table₂).map (fun e => e.1))) := by
  have hconst : ∀ e ∈ candidateTable props table, sortKey e = (0, 0) := by
    intro e he
    exact sortKey_initCands e ((candidateTable_sublist h).subset he)
  have hid : create_candidates props table = candidateTable props table :=
    sortDesc_const hconst
  refine ⟨hid, ?_, ?_, ?_⟩
  · rw [hid]; exact candidateTable_sublist h
  · intro props₂ table₂ k
    exact filter_sortDesc k (candidateTable props₂ table₂)
  · intro props₂ table₂
    exact namesOf_candidateTable_sublist

/-- Witness for claim C9: with property set {reliable: REQUIRE} (no PREFER,
no AVOID) the returned ranking is literally the unsorted surviving dict. -/
theorem claim_C9_witness :
    create_candidates props₁ table₁ = candidateTable props₁ table₁ :=
  (claim_C9 props₁ table₁ (by decide)).1

/-- Single-step facts behind claim C2: no event ever appends to `pending`,
`cancelled` can only grow by the (empty) contents of `pending`, and
`transports` grows exactly at attempt construction. -/
theorem raceStep_fields (s : RaceConn) (e : RaceEvent) (hp : s.pending = []) :
    (raceStep s e).pending = [] ∧
    (raceStep s e).cancelled = s.cancelled ∧
    (raceStep s e).transports = s.transports ++ traceInits [e] := by
  cases e with
  | init i =>
    simp [raceStep, transportLayer_init, traceInits, hp]
  | connMadeTcp i =>
    simp only [raceStep]
    unfold tcp_connection_made
    split_ifs <;> simp [traceInits, hp]
  | connMadeUdp i =>
    simp only [raceStep]
    unfold udp_connection_made
    split_ifs <;> simp [traceInits, hp]
  | runActiveOpenTcp i =>
    simp only [raceStep]
    split_ifs <;> simp [tcp_active_open, traceInits, hp]
  | runActiveOpenUdp i =>
    simp only [raceStep]
    split_ifs <;> simp [udp_active_open, traceInits, hp]

theorem race_trace_invariant (trace : List RaceEvent) :
    ∀ (s : RaceConn), s.pending = [] →
      (trace.foldl raceStep s).pending = [] ∧
      (trace.foldl raceStep s).cancelled = s.cancelled ∧
      (trace.foldl raceStep s).transports = s.transports ++ traceInits trace := by
  induction trace with
  | nil => intro s hp; exact ⟨hp, rfl, by simp [traceInits]⟩
  | cons e rest ih =>
    intro s hp
    have hstep := raceStep_fields s e hp
    have hrest := ih (raceStep s e) hstep.1
    refine ⟨hrest.1, ?_, ?_⟩
    · rw [List.foldl_cons] at *
      rw [hrest.2.1, hstep.2.1]
    · rw [List.foldl_cons] at *
      rw [hrest.2.2, hstep.2.2]
      have : traceInits (e :: rest) = traceInits [e] ++ traceInits rest := by
        cases e <;> simp [traceInits]
      rw [this, List.append_assoc]

theorem claim_C2_counterexample :
    (traceC2.foldl raceStep (initialRace true)).state = ConnectionState.ESTABLISHED ∧
    (traceC2.foldl raceStep (initialRace true)).establishedBy = some 1 ∧
    (traceC2.foldl raceStep (initialRace true)).transports = [0, 1] ∧
    (traceC2.foldl raceStep (initialRace true)).transports.head? = some 0 ∧
    (traceC2.foldl raceStep (initialRace true)).transports.head? ≠
      (traceC2.foldl raceStep (initialRace true)).establishedBy ∧
    (traceC2.foldl raceStep (initialRace true)).cancelled = [] := by
  decide

/-- Claim C2, amended: after any sequence of attempt constructions,
`connection_made` callbacks and `active_open` runs, `transports` holds every
attempt object in construction order — the winner is never moved to index 0,
no attempt object is removed, and no attempt is ever cancelled (`pending`
stays empty) — so `transports[0]` is the first-constructed attempt, which
need not be the session that won the race. -/
theorem claim_C2_amended (trace : List RaceEvent) (readySet : Bool) :
    (trace.foldl raceStep (initialRace readySet)).transports = traceInits trace ∧
    (trace.foldl raceStep (initialRace readySet)).transports.head? =
      (traceInits trace).head? ∧
    (trace.foldl raceStep (initialRace readySet)).pending = [] ∧
    (trace.foldl raceStep (initialRace readySet)).cancelled = [] := by
  have h := race_trace_invariant trace (initialRace readySet) rfl
  have ht : (trace.foldl raceStep (initialRace readySet)).transports = traceInits trace := by
    rw [h.2.2]; rfl
  exact ⟨ht, by rw [ht], h.1, by rw [h.2.1]; rfl⟩

/-- Claim C3: once the connection is ESTABLISHED, a later `connection_made`
of any other attempt closes that attempt's socket and does nothing else — no
callback or task is scheduled and the connection's state, `transports` and
every other field are unchanged (both the TCP and the UDP variant). -/
theorem claim_C3 (s : RaceConn) (i : Nat)
    (h : s.state = ConnectionState.ESTABLISHED) :
    tcp_connection_made i s = { s with socketClosed := s.socketClosed ++ [i] } ∧
    udp_connection_made i s = { s with socketClosed := s.socketClosed ++ [i] } := by
  unfold tcp_connection_made udp_connection_made
  rw [if_pos h]
  exact ⟨rfl, rfl⟩

/-- Witness for claim C3 at a concrete established connection and attempt 7. -/
theorem claim_C3_witness :
    tcp_connection_made 7 establishedConn
        = { establishedConn with socketClosed := establishedConn.socketClosed ++ [7] } ∧
    udp_connection_made 7 establishedConn
        = { establishedConn with socketClosed := establishedConn.socketClosed ++ [7] } :=
  claim_C3 establishedConn 7 rfl

/-- Claim C5 (code bug): on every connection state other than ESTABLISHED,
`send` increments the message counter but then raises AttributeError on the
nonexistent `self.send_error` attribute — it schedules no `send_error`
callback, performs no network write, and returns nothing, contrary to the
claimed behaviour (exactly one `send_error` carrying the sequence number,
and the counter returned). -/
theorem claim_C5_bug (mc : Nat) (framerSet : Bool) (data : List Nat) :
    transportLayer_send mc ConnectionState.ESTABLISHING framerSet data
        = ⟨mc + 1, SendResult.raisedAttributeError ("send_error"), []⟩ ∧
    transportLayer_send mc ConnectionState.CLOSING framerSet data
        = ⟨mc + 1, SendResult.raisedAttributeError ("send_error"), []⟩ ∧
    transportLayer_send mc ConnectionState.CLOSED framerSet data
        = ⟨mc + 1, SendResult.raisedAttributeError ("send_error"), []⟩ :=
  ⟨rfl, rfl, rfl⟩

/-- Counterexample to claim C8: invoking `close()` on a connection whose
state is CLOSED sets the state to CLOSING — a further state transition out
of CLOSED. -/
theorem claim_C8_counterexample :
    (connection_close ConnectionState.CLOSED false).1 = ConnectionState.CLOSING ∧
    ConnectionState.CLOSING ≠ ConnectionState.CLOSED := by
  decide

/-- Claim C8, amended: `close()` unconditionally schedules the transport
close and sets the connection state to CLOSING whatever the current state —
including CLOSED — and the scheduled `UdpTransport.close` then sets the state
back to CLOSED (scheduling another `closed` event); CLOSED is therefore not
terminal under a repeated `close()`. -/
theorem claim_C8_amended (st : ConnectionState) (multicastOpen closedSet : Bool) :
    (connection_close st multicastOpen).1 = ConnectionState.CLOSING ∧
    (udpTransport_close closedSet).1 = ConnectionState.CLOSED :=
  ⟨rfl, rfl⟩

/-- Claim C6 (code bug): on a fresh TCP session, after `data_received` of the
5 bytes of "hello" followed by `eof_received`, a read with
`min_incomplete_length = 5` is satisfied — but it is delivered via
`received_partial` (end-of-message false), not via `received` as the claim
requires, because `eof_received` set the flag on the Connection object
(`connection_at_eof`) while `read` consults the transport's own `at_eof`
flag, which is still false. -/
theorem claim_C6_bug :
    (tcp_eof_received (tcp_data_received ⟨none, false, false⟩ helloBytes)).connection_at_eof
        = true ∧
    (tcp_eof_received (tcp_data_received ⟨none, false, false⟩ helloBytes)).at_eof = false ∧
    tcp_read (tcp_eof_received (tcp_data_received ⟨none, false, false⟩ helloBytes))
        5 (-1) true true
      = some (⟨none, false, true⟩, [RxEvent.receivedPart helloBytes false]) := by
  decide

/-- Claim C7: whatever `min_incomplete_length` and `max_length` are passed, a
UDP read on a non-empty buffer removes exactly the oldest buffered datagram
and delivers it whole via the `received` callback; the remaining buffer holds
exactly the younger datagrams, and no call ever schedules a
`received_partial` delivery. -/
theorem claim_C7 (s : UdpSession) (d : List Nat) (rest : List (List Nat))
    (minIncompleteLength : Nat) (maxLength : Int)
    (h : s.recv_buffer = some (d :: rest)) :
    udp_read s minIncompleteLength maxLength true
        = some (⟨if rest = [] then none else some rest⟩, [RxEvent.received d]) ∧
    (∀ (receivedSet : Bool) (s' : UdpSession) (evs : List RxEvent),
      udp_read s minIncompleteLength maxLength receivedSet = some (s', evs) →
      ∀ (dd : List Nat) (b : Bool), RxEvent.receivedPart dd b ∉ evs) := by
  rcases s with ⟨buf⟩
  cases h
  constructor
  · cases rest with
    | nil => simp [udp_read]
    | cons r rs => simp [udp_read]
  · intro receivedSet s' evs hev dd b
    cases receivedSet with
    | false =>
      simp [udp_read] at hev
      rw [hev.2]
      exact List.not_mem_nil _
    | true =>
      simp [udp_read] at hev
      rw [← hev.2]
      intro hmem
      have h := List.mem_singleton.mp hmem
      simp at h

/-- Witness for claim C7: a session holding the single datagram [1, 2]
delivers it whole via `received` even for `min_incomplete_length = 99`. -/
theorem claim_C7_witness :
    udp_read ⟨some [[1, 2]]⟩ 99 0 true = some (⟨none⟩, [RxEvent.received [1, 2]]) := by
  have h := (claim_C7 ⟨some [[1, 2]]⟩ [1, 2] [] 99 0 rfl).1
  simpa using h

/-- Counterexample to claim C4: with an empty candidate set and the
`initiate_error` callback set (`initErrSet = true`), the older-generation
`race` makes no attempt but also schedules no `initiate_error` — it does not
"fail immediately by invoking the initiate_error callback" as claimed. -/
theorem claim_C4_counterexample :
    create_candidates propsEmpty tableEmpty = [] ∧
    race_PyTAPS propsEmpty tableEmpty true (fun _ => false)
        = ⟨[], false⟩ := by
  constructor
  · decide
  · unfold race_PyTAPS
    have h : create_candidates propsEmpty tableEmpty = [] := by decide
    rw [h]
    rfl

/-- Claim C4, amended: for every connection whose candidate set is empty,
`race` makes no connection attempt; the newer-generation (pytaps) `race`
additionally fails immediately by scheduling the `initiate_error` callback
exactly when one is set, while the older-generation (PyTAPS) `race` returns
without scheduling any callback. -/
theorem claim_C4_amended (props : PropertySet) (table : List ProtocolRow)
    (initErrSet : Bool) (remoteV6 remoteV4 : List String)
    (localAddrs : Option (List String × List String))
    (established : Nat → Bool)
    (h : create_candidates props table = []) :
    race_pytaps props table initErrSet remoteV6 remoteV4 localAddrs established
        = ⟨[], initErrSet⟩ ∧
    race_PyTAPS props table initErrSet established = ⟨[], false⟩ := by
  constructor
  · unfold race_pytaps
    rw [h]
    rfl
  · unfold race_PyTAPS
    rw [h]
    rfl

/-- Witness for claim C4 (amended) at the concrete empty-making inputs. -/
theorem claim_C4_witness :
    race_pytaps propsEmpty tableEmpty true [] [] none (fun _ => false)
        = ⟨[], true⟩ ∧
    race_PyTAPS propsEmpty tableEmpty true (fun _ => false) = ⟨[], false⟩ :=
  claim_C4_amended propsEmpty tableEmpty true [] [] none (fun _ => false)
    (by decide)

/-- Claim C10: every connection the passive side hands to
`connection_received` — created by a TCP stream accept or by the first
datagram from a previously unseen remote address — is already ESTABLISHED at
the moment the callback is scheduled, and its state history is exactly
ESTABLISHING (construction) followed by ESTABLISHED: it never enters the
establishment race. -/
theorem claim_C10 (remotes : List (String × Nat)) (addr : String × Nat)
    (data : List Nat) (h : addr ∉ remotes) :
    (∀ c, datagramHandler_datagram_received remotes addr true data = some c →
      c.scheduled = [ConnectionState.ESTABLISHED] ∧
      c.history = [ConnectionState.ESTABLISHING, ConnectionState.ESTABLISHED] ∧
      c.state = ConnectionState.ESTABLISHED) ∧
    ((streamHandler_connection_made true).scheduled = [ConnectionState.ESTABLISHED] ∧
      (streamHandler_connection_made true).history
          = [ConnectionState.ESTABLISHING, ConnectionState.ESTABLISHED] ∧
      (streamHandler_connection_made true).state = ConnectionState.ESTABLISHED) := by
  constructor
  · intro c hc
    unfold datagramHandler_datagram_received at hc
    rw [if_neg h] at hc
    cases hc
    exact ⟨rfl, rfl, rfl⟩
  · exact ⟨rfl, rfl, rfl⟩

/-- Witness for claim C10 at a concrete unseen address and datagram. -/
theorem claim_C10_witness :
    (datagramHandler_new_flow true [7]).scheduled = [ConnectionState.ESTABLISHED] ∧
    (datagramHandler_new_flow true [7]).history
        = [ConnectionState.ESTABLISHING, ConnectionState.ESTABLISHED] ∧
    (datagramHandler_new_flow true [7]).state = ConnectionState.ESTABLISHED :=
  (claim_C10 [] (("a"), 1) [7] (List.not_mem_nil _)).1
    (datagramHandler_new_flow true [7]) rfl

end Taps

